import Mathlib

/-!
Verification of the WAD compatibility layer (src/game/PsyDoom/wad_compat.cpp
and wad_compat.h). The shallow embedding below translates the format
detector, the geometry lump converter, the conversion session lifecycle and
the two texture compositing routines into executable Lean definitions over
byte lists. Lump bytes are modelled as a list of natural numbers, one entry
per byte; a read past the end of the list yields none and stands for an
out-of-bounds dereference of the C code.

Structures declared in headers that are not part of the source excerpt
(doomdata.h record layouts, FRACBITS from doomdef.h, the WadFile container)
are modelled from the specification; each such definition carries a doc
comment saying so.
-/

namespace WadCompat

/-- Bytes of a lump: one entry per byte. The length of the list is the
declared size of the lump. -/
abbrev Bytes := List Nat

/-- Reading one byte at an offset. A none result models a dereference past
the end of the lump data. -/
def byteAt (d : Bytes) (i : Nat) : Option Nat := d[i]?

/-- Little-endian unsigned 16-bit read, as done by the little16 helper. -/
def readU16le (d : Bytes) (i : Nat) : Option Nat :=
  match byteAt d i, byteAt d (i + 1) with
  | some a, some b => some (a + 256 * b)
  | _, _ => none

/-- Little-endian unsigned 32-bit read, as done by the little32 helper. -/
def readU32le (d : Bytes) (i : Nat) : Option Nat :=
  match byteAt d i, byteAt d (i + 1), byteAt d (i + 2), byteAt d (i + 3) with
  | some a, some b, some c, some e => some (a + 256 * b + 65536 * c + 16777216 * e)
  | _, _, _, _ => none

/-- Reinterpret a 16-bit unsigned value as a signed int16. -/
def i16ofNat (v : Nat) : Int :=
  if v % 65536 < 32768 then ((v % 65536 : Nat) : Int)
  else ((v % 65536 : Nat) : Int) - 65536

/-- Reinterpret a 32-bit unsigned value as a signed int32. -/
def i32ofNat (v : Nat) : Int :=
  if v % 4294967296 < 2147483648 then ((v % 4294967296 : Nat) : Int)
  else ((v % 4294967296 : Nat) : Int) - 4294967296

/-- Little-endian signed 16-bit read. -/
def readI16 (d : Bytes) (i : Nat) : Option Int := (readU16le d i).map i16ofNat

/-- Little-endian signed 32-bit read. -/
def readI32 (d : Bytes) (i : Nat) : Option Int := (readU32le d i).map i32ofNat

/-- Total variant of the unsigned 16-bit read, used to state theorems; it
agrees with readU16le whenever the offsets are in bounds. -/
def u16At (d : Bytes) (i : Nat) : Nat := d.getD i 0 + 256 * d.getD (i + 1) 0

/-- Total variant of the signed 16-bit read, used to state theorems. -/
def i16At (d : Bytes) (i : Nat) : Int := i16ofNat (u16At d i)

/-- C integral conversion of a signed value into an int16 storage location
(two-for-one complement wraparound). -/
def narrowI16 (x : Int) : Int :=
  if x % 65536 < 32768 then x % 65536 else x % 65536 - 65536

/-- C integral conversion of a signed value into a uint8 storage location. -/
def narrowU8 (x : Int) : Nat := (x % 256).toNat

/-- Uppercasing of one ASCII character, as the case-insensitive compare of
strnicmp does for letters. -/
def upChar (c : Char) : Char :=
  if 97 ≤ c.toNat ∧ c.toNat ≤ 122 then Char.ofNat (c.toNat - 32) else c

/-- Case-insensitive fixed-width name comparison: models
strnicmp(a, b, 8) == 0 for names without embedded NUL characters. -/
def sameName8 (a b : List Char) : Bool :=
  ((a.take 8).map upChar) == ((b.take 8).map upChar)

/-- Name of the vertex geometry lump. -/
def vertexesN : List Char := "VERTEXES".toList

/-- Name of the sector geometry lump. -/
def sectorsN : List Char := "SECTORS".toList

/-- Name of the sidedef geometry lump. -/
def sidedefsN : List Char := "SIDEDEFS".toList

/-- Name of the linedef geometry lump. -/
def linedefsN : List Char := "LINEDEFS".toList

/-- Wad formats, from wad_compat.h. -/
inductive WadFormat where
  | Unknown
  | PC_Doom
  | PC_Hexen
  | PSX_Doom
  | PSX_FinalDoom
deriving DecidableEq

/-- Detection outcome, from wad_compat.h (fields not written by the
detector are omitted). -/
structure WadFormatInfo where
  format : WadFormat
  numMaps : Int
deriving DecidableEq

/-- One directory entry of an archive: a lump name and its byte size. -/
structure LumpEnt where
  name : List Char
  size : Nat
deriving DecidableEq

/-- Modelled from the spec: the archive container (WadFile) is an external
collaborator exposing findLump(name) returning an index or a negative
value; the detector only tests whether the result is nonnegative, so the
model keeps the directory of (name, size) entries and exposes lookup
success. -/
structure WadArchive where
  lumps : List LumpEnt
deriving DecidableEq

/-- Whether findLump(name) succeeds on the archive. -/
def findLumpB (w : WadArchive) (n : List Char) : Bool :=
  w.lumps.any (fun e => e.name == n)

/-- WadCompatibilityLayer::detectWadFormat, wad_compat.cpp lines 91 to 109:
the format is PC_Doom exactly when PNAMES, TEXTURE1 and one of MAP01 or
E1M1 are present, and Unknown otherwise; numMaps is always 0. No lump size
is ever inspected. -/
def detectWadFormat (w : WadArchive) : WadFormatInfo :=
  let hasPNames := findLumpB w ("PNAMES".toList)
  let hasTexture1 := findLumpB w ("TEXTURE1".toList)
  let hasMap01 := findLumpB w ("MAP01".toList)
  let hasE1M1 := findLumpB w ("E1M1".toList)
  if hasPNames && hasTexture1 && (hasMap01 || hasE1M1) then
    { format := WadFormat.PC_Doom, numMaps := 0 }
  else
    { format := WadFormat.Unknown, numMaps := 0 }

/-- Archive used to refute claim C5: it has the MAP01 marker and a
VERTEXES lump of byte length 4. -/
def archC5 : WadArchive :=
  { lumps := [ { name := "MAP01".toList, size := 0 },
               { name := "VERTEXES".toList, size := 4 } ] }

/-- C5 counterexample: the claim says a vertex lump length of 4 (remainder
zero modulo the PC record size 4 and nonzero modulo the PSX record size 8)
classifies the archive as PC when a map marker is present; the code
classifies this archive as Unknown, because detectWadFormat never inspects
any lump length and demands PNAMES and TEXTURE1 for a PC classification. -/
theorem c5_counterexample :
    (detectWadFormat archC5).format = WadFormat.Unknown ∧
    4 % 4 = 0 ∧ 4 % 8 ≠ 0 ∧
    WadFormat.Unknown ≠ WadFormat.PC_Doom := by
  refine ⟨by decide, by decide, by decide, by decide⟩

/-- C5 amended: format detection never inspects any lump byte length; it
classifies the archive as PC_Doom exactly when PNAMES, TEXTURE1 and one of
the MAP01 or E1M1 markers are all present, and as Unknown otherwise. -/
theorem c5_theorem (w : WadArchive) :
    ((detectWadFormat w).format = WadFormat.PC_Doom ↔
      (findLumpB w ("PNAMES".toList) = true ∧
       findLumpB w ("TEXTURE1".toList) = true ∧
       (findLumpB w ("MAP01".toList) = true ∨ findLumpB w ("E1M1".toList) = true))) ∧
    ((detectWadFormat w).format = WadFormat.PC_Doom ∨
     (detectWadFormat w).format = WadFormat.Unknown) := by
  unfold detectWadFormat
  constructor
  · constructor
    · intro h
      by_cases h1 : findLumpB w ("PNAMES".toList) = true <;>
        by_cases h2 : findLumpB w ("TEXTURE1".toList) = true <;>
          by_cases h3 : findLumpB w ("MAP01".toList) = true <;>
            by_cases h4 : findLumpB w ("E1M1".toList) = true <;>
              simp_all
    · intro ⟨h1, h2, h34⟩
      rcases h34 with h3 | h4 <;> simp_all
  · by_cases h1 : findLumpB w ("PNAMES".toList) = true <;>
      by_cases h2 : findLumpB w ("TEXTURE1".toList) = true <;>
        by_cases h3 : findLumpB w ("MAP01".toList) = true <;>
          by_cases h4 : findLumpB w ("E1M1".toList) = true <;>
            simp_all

/-- Modelled from the spec: FRACBITS comes from doomdef.h which is not in
the source excerpt; the spec fixes the fixed-point representation at 16
fractional bits, matching FRACUNIT = 65536 used elsewhere in the sources. -/
def FRACBITS : Nat := 16

/-- Modelled from the spec: sizeof(mapvertex_t) for the destination format;
the PSX vertex record is two 32-bit fixed-point values, hence 8 bytes. -/
def SIZEOF_PSX_VERTEX : Nat := 8

/-- Destination vertex record (mapvertex_t, doomdata.h, outside the source
excerpt). Fields hold the value of the assigned C expression; the spec
gives them 32 bits and the assigned values always fit. -/
structure PsxVertex where
  x : Int
  y : Int
deriving DecidableEq

/-- Modelled from the spec: destination sector record (mapsector_t,
doomdata.h, outside the source excerpt). Per the spec the record stores
16-bit heights, 16-bit flat indices, an 8-bit light level and an 8-bit
color id, plus 16-bit special and tag. Field values are the assigned C
expressions narrowed into those widths; fields the conversion never writes
keep the prior contents of the destination buffer. -/
structure PsxSector where
  floorheight : Int
  ceilingheight : Int
  floorpic : Int
  ceilingpic : Int
  lightlevel : Nat
  colorid : Nat
  special : Int
  tag : Int
deriving DecidableEq

/-- Modelled from the spec: destination sidedef record (mapsidedef_t,
doomdata.h, outside the source excerpt). Per the spec the sidedef record
sizes match byte-for-byte between the formats, so the offset fields are
16-bit integers; texture fields hold the resolved indices. -/
structure PsxSidedef where
  textureoffset : Int
  rowoffset : Int
  toptexture : Int
  bottomtexture : Int
  midtexture : Int
  sector : Int
deriving DecidableEq

/-- Destination linedef record (maplinedef_t, doomdata.h, outside the
source excerpt); all seven fields are 16-bit copies of the source. -/
structure PsxLinedef where
  v1 : Int
  v2 : Int
  flags : Int
  special : Int
  tag : Int
  sidenum0 : Int
  sidenum1 : Int
deriving DecidableEq

/-- Sizes of the destination record kinds whose struct declarations are
outside the source excerpt. All theorems hold for every choice of these
values, because the code uses the same sizeof both to compute the needed
size and to advance the destination write pointer. -/
structure PsxSizes where
  sector : Nat
  sidedef : Nat
  linedef : Nat
deriving DecidableEq

/-- Reading n consecutive bytes starting at offset j. -/
def bytesAt (d : Bytes) (j : Nat) : Nat → Option Bytes
  | 0 => some []
  | n + 1 =>
    match byteAt d j, bytesAt d (j + 1) n with
    | some b, some bs => some (b :: bs)
    | _, _ => none

/-- One record of convertVertices_PCToPSX (wad_compat.cpp lines 183 to
191): dst.x = (fixed_t)little16(src.x) << FRACBITS, and likewise for y.
The shifted value fits in the 32-bit destination, so no narrowing occurs. -/
def cvtVertexRec (d : Bytes) (i : Nat) : Option PsxVertex :=
  match readI16 d (4 * i), readI16 d (4 * i + 2) with
  | some x, some y => some { x := x * 2 ^ FRACBITS, y := y * 2 ^ FRACBITS }
  | _, _ => none

/-- One record of convertSectors_PCToPSX (wad_compat.cpp lines 193 to 210).
The PC record is 26 bytes: heights at 0 and 2, flat names at 4 and 12
(never read, the code assigns index 0 directly), light level at 20,
special at 22, tag at 24. Heights are assigned shifted by FRACBITS and
narrowed into the 16-bit field; the 16-bit light level is narrowed into
the 8-bit field; colorid is never assigned and keeps the prior byte of the
destination buffer, supplied by prevColor. -/
def cvtSectorRec (d : Bytes) (prevColor : Nat → Nat) (i : Nat) : Option PsxSector :=
  match readI16 d (26 * i), readI16 d (26 * i + 2), readI16 d (26 * i + 20),
        readI16 d (26 * i + 22), readI16 d (26 * i + 24) with
  | some fh, some ch, some ll, some sp, some tg =>
    some { floorheight := narrowI16 (fh * 2 ^ FRACBITS)
           ceilingheight := narrowI16 (ch * 2 ^ FRACBITS)
           floorpic := 0
           ceilingpic := 0
           lightlevel := narrowU8 ll
           colorid := prevColor i
           special := sp
           tag := tg }
  | _, _, _, _, _ => none

/-- One record of convertSidedefs_PCToPSX (wad_compat.cpp lines 212 to
226). The PC record is 30 bytes: offsets at 0 and 2, three 8-byte texture
names at 4, 12 and 20, sector at 28. Offsets are assigned shifted by
FRACBITS and narrowed into the 16-bit field; texture names are resolved
through the external renderer lookup, modelled by the resolve oracle. -/
def cvtSidedefRec (d : Bytes) (resolve : Bytes → Int) (i : Nat) : Option PsxSidedef :=
  match readI16 d (30 * i), readI16 d (30 * i + 2), bytesAt d (30 * i + 4) 8,
        bytesAt d (30 * i + 12) 8, bytesAt d (30 * i + 20) 8, readI16 d (30 * i + 28) with
  | some tof, some rof, some tt, some bt, some mt, some sec =>
    some { textureoffset := narrowI16 (tof * 2 ^ FRACBITS)
           rowoffset := narrowI16 (rof * 2 ^ FRACBITS)
           toptexture := resolve tt
           bottomtexture := resolve bt
           midtexture := resolve mt
           sector := sec }
  | _, _, _, _, _, _ => none

/-- One record of convertLinedefs_PCToPSX (wad_compat.cpp lines 228 to
241): seven 16-bit fields copied verbatim from the 14-byte PC record. -/
def cvtLinedefRec (d : Bytes) (i : Nat) : Option PsxLinedef :=
  match readI16 d (14 * i), readI16 d (14 * i + 2), readI16 d (14 * i + 4),
        readI16 d (14 * i + 6), readI16 d (14 * i + 8), readI16 d (14 * i + 10),
        readI16 d (14 * i + 12) with
  | some a, some b, some c, some e, some f, some g, some h =>
    some { v1 := a, v2 := b, flags := c, special := e, tag := f,
           sidenum0 := g, sidenum1 := h }
  | _, _, _, _, _, _, _ => none

/-- Sequencing of the per-record conversion loop: records 0 to n-1 in
order, failing if any record conversion dereferences out of bounds. -/
def recList {α : Type} (f : Nat → Option α) : Nat → Option (List α)
  | 0 => some []
  | n + 1 =>
    match recList f n, f n with
    | some l, some v => some (l ++ [v])
    | _, _ => none

/-- Output written by one convertMapLump call: either a list of converted
records of one geometry kind, or nothing at all (the code never writes to
the destination buffer outside the four geometry branches). -/
inductive OutData where
  | vertsOut (l : List PsxVertex)
  | sectsOut (l : List PsxSector)
  | sidesOut (l : List PsxSidedef)
  | linesOut (l : List PsxLinedef)
  | noWrite
deriving DecidableEq

/-- Number of destination records written. -/
def recCount : OutData → Nat
  | .vertsOut l => l.length
  | .sectsOut l => l.length
  | .sidesOut l => l.length
  | .linesOut l => l.length
  | .noWrite => 0

/-- Number of destination bytes written: records times the destination
record size, exactly as the C write loop advances its pointer. -/
def writtenBytes (szs : PsxSizes) : OutData → Nat
  | .vertsOut l => l.length * SIZEOF_PSX_VERTEX
  | .sectsOut l => l.length * szs.sector
  | .sidesOut l => l.length * szs.sidedef
  | .linesOut l => l.length * szs.linedef
  | .noWrite => 0

/-- WadCompatibilityLayer::needsConversion, wad_compat.h lines 136 to 138. -/
def needsConversionF (fmt : WadFormat) : Bool := fmt == WadFormat.PC_Doom

/-- PC record size of the geometry kind selected by the lump name, using
the same name tests in the same order as convertMapLump; none when the
name matches no geometry kind. -/
def pcRecSizeOf (name : List Char) : Option Nat :=
  if sameName8 name vertexesN then some 4
  else if sameName8 name sectorsN then some 26
  else if sameName8 name sidedefsN then some 30
  else if sameName8 name linedefsN then some 14
  else none

/-- Destination record size of the geometry kind selected by the lump
name; zero for an unmatched name. -/
def psxRecSizeOf (szs : PsxSizes) (name : List Char) : Nat :=
  if sameName8 name vertexesN then SIZEOF_PSX_VERTEX
  else if sameName8 name sectorsN then szs.sector
  else if sameName8 name sidedefsN then szs.sidedef
  else if sameName8 name linedefsN then szs.linedef
  else 0

/-- WadCompatibilityLayer::convertMapLump, wad_compat.cpp lines 128 to 177.
The source byte list stands for (pSourceData, sourceSize) with
sourceSize = src.length; hasDest tells whether a destination buffer was
passed (the two-phase size-then-fill protocol: a null destination means a
size-only query). The returned pair is (neededSize, data written); none
models an out-of-bounds read of the source, which the theorems below prove
impossible. The count is sourceSize divided by the PC record size with the
remainder discarded, exactly as the C integer division does; when the
format needs no conversion, or the name matches no geometry kind, the call
returns 0 and writes nothing. -/
def convertMapLump (szs : PsxSizes) (fmt : WadFormat) (prevColor : Nat → Nat)
    (resolve : Bytes → Int) (lumpName : List Char) (src : Bytes)
    (hasDest : Bool) : Option (Nat × OutData) :=
  if !(needsConversionF fmt) then some (0, OutData.noWrite)
  else if sameName8 lumpName vertexesN then
    let count := src.length / 4
    if hasDest then
      (recList (cvtVertexRec src) count).map
        (fun l => (count * SIZEOF_PSX_VERTEX, OutData.vertsOut l))
    else some (count * SIZEOF_PSX_VERTEX, OutData.noWrite)
  else if sameName8 lumpName sectorsN then
    let count := src.length / 26
    if hasDest then
      (recList (cvtSectorRec src prevColor) count).map
        (fun l => (count * szs.sector, OutData.sectsOut l))
    else some (count * szs.sector, OutData.noWrite)
  else if sameName8 lumpName sidedefsN then
    let count := src.length / 30
    if hasDest then
      (recList (cvtSidedefRec src resolve) count).map
        (fun l => (count * szs.sidedef, OutData.sidesOut l))
    else some (count * szs.sidedef, OutData.noWrite)
  else if sameName8 lumpName linedefsN then
    let count := src.length / 14
    if hasDest then
      (recList (cvtLinedefRec src) count).map
        (fun l => (count * szs.linedef, OutData.linesOut l))
    else some (count * szs.linedef, OutData.noWrite)
  else some (0, OutData.noWrite)

/-- Per-session state of the compatibility layer: the active format
(mCurrentFormat) and the name-keyed cache of converted lumps
(mConvertedLumps); only the key set of the cache matters to the claims. -/
structure SessionState where
  format : WadFormat
  cacheNames : List (List Char)
deriving DecidableEq

/-- WadCompatibilityLayer::beginMapConversion, wad_compat.cpp lines 119 to
122: records the source format and clears the converted-lump cache. The
mapWad argument of the C function is unused and omitted. -/
def beginMapConversion (_s : SessionState) (fmt : WadFormat) : SessionState :=
  { format := fmt, cacheNames := [] }

/-- WadCompatibilityLayer::endMapConversion, wad_compat.cpp lines 124 to
126: the body is empty, so the session state is returned unchanged. -/
def endMapConversion (s : SessionState) : SessionState := s

/-- needsConversion read on the session state. -/
def needsConversionS (s : SessionState) : Bool := needsConversionF s.format

/-- Session-level view of convertMapLump: the member function reads only
mCurrentFormat and writes no member of the layer, so it returns the state
unchanged alongside the conversion result. -/
def convertMapLumpS (szs : PsxSizes) (prevColor : Nat → Nat)
    (resolve : Bytes → Int) (s : SessionState) (lumpName : List Char)
    (src : Bytes) (hasDest : Bool) : SessionState × Option (Nat × OutData) :=
  (s, convertMapLump szs s.format prevColor resolve lumpName src hasDest)

/-- Reading a byte inside the lump succeeds and returns the byte. -/
theorem byteAt_eq {d : Bytes} {i : Nat} (h : i < d.length) :
    byteAt d i = some (d.getD i 0) := by
  simp [byteAt, List.getElem?_eq_getElem h, List.getD_eq_getElem d 0 h]

/-- An in-bounds 16-bit read succeeds and agrees with the total reader. -/
theorem readU16le_eq {d : Bytes} {i : Nat} (h : i + 1 < d.length) :
    readU16le d i = some (u16At d i) := by
  have h0 : i < d.length := by omega
  simp [readU16le, byteAt_eq h0, byteAt_eq h, u16At]

/-- An in-bounds signed 16-bit read succeeds and agrees with the total
reader. -/
theorem readI16_eq {d : Bytes} {i : Nat} (h : i + 1 < d.length) :
    readI16 d i = some (i16At d i) := by
  simp [readI16, readU16le_eq h, i16At]

/-- Total variant of the unsigned 32-bit read, used to state theorems. -/
def u32At (d : Bytes) (i : Nat) : Nat :=
  d.getD i 0 + 256 * d.getD (i + 1) 0 + 65536 * d.getD (i + 2) 0 +
    16777216 * d.getD (i + 3) 0

/-- An in-bounds signed 32-bit read succeeds and agrees with the total
reader. -/
theorem readI32_eq {d : Bytes} {i : Nat} (h : i + 3 < d.length) :
    readI32 d i = some (i32ofNat (u32At d i)) := by
  have h0 : i < d.length := by omega
  have h1 : i + 1 < d.length := by omega
  have h2 : i + 2 < d.length := by omega
  simp [readI32, readU32le, byteAt_eq h0, byteAt_eq h1, byteAt_eq h2, byteAt_eq h,
    u32At]

/-- An in-bounds block read succeeds. -/
theorem bytesAt_isSome {d : Bytes} :
    ∀ (n j : Nat), j + n ≤ d.length → ∃ bs, bytesAt d j n = some bs := by
  intro n
  induction n with
  | zero => exact fun j _ => ⟨[], rfl⟩
  | succ n ih =>
    intro j h
    obtain ⟨bs, hbs⟩ := ih (j + 1) (by omega)
    have hb := byteAt_eq (d := d) (i := j) (by omega)
    refine ⟨d.getD j 0 :: bs, ?_⟩
    simp only [bytesAt, hb, hbs]

/-- A successful record sequencing yields exactly n records, the i-th one
being the i-th record conversion. -/
theorem recList_get {α : Type} {f : Nat → Option α} :
    ∀ {n : Nat} {l : List α}, recList f n = some l →
      l.length = n ∧ ∀ i, i < n → l[i]? = f i := by
  intro n
  induction n with
  | zero =>
    intro l h
    simp only [recList, Option.some.injEq] at h
    subst h
    exact ⟨rfl, fun i hi => absurd hi (by omega)⟩
  | succ n ih =>
    intro l h
    simp only [recList] at h
    cases hr : recList f n with
    | none => rw [hr] at h; simp at h
    | some l0 =>
      cases hv : f n with
      | none => rw [hr, hv] at h; simp at h
      | some v =>
        rw [hr, hv] at h
        simp only [Option.some.injEq] at h
        obtain ⟨hlen, hget⟩ := ih hr
        subst h
        refine ⟨by simp [hlen], ?_⟩
        intro i hi
        rcases Nat.lt_or_ge i n with h1 | h1
        · rw [List.getElem?_append, if_pos (by omega)]
          exact hget i h1
        · have hi2 : i = n := by omega
          subst hi2
          rw [hv, List.getElem?_append, if_neg (by omega)]
          rw [show i - l0.length = 0 from by omega]
          rfl

/-- The record sequencing succeeds when every record conversion does. -/
theorem recList_isSome {α : Type} {f : Nat → Option α} :
    ∀ n, (∀ i, i < n → (f i).isSome) → ∃ l, recList f n = some l := by
  intro n
  induction n with
  | zero => exact fun _ => ⟨[], rfl⟩
  | succ n ih =>
    intro h
    obtain ⟨l, hl⟩ := ih (fun i hi => h i (by omega))
    obtain ⟨v, hv⟩ := Option.isSome_iff_exists.mp (h n (by omega))
    exact ⟨l ++ [v], by simp [recList, hl, hv]⟩

/-- A vertex record conversion stays within the source when the whole
record lies inside it. -/
theorem cvtVertexRec_isSome {d : Bytes} {i : Nat} (h : 4 * i + 4 ≤ d.length) :
    (cvtVertexRec d i).isSome := by
  have e1 := readI16_eq (d := d) (i := 4 * i) (by omega)
  have e2 := readI16_eq (d := d) (i := 4 * i + 2) (by omega)
  simp [cvtVertexRec, e1, e2]

/-- A sector record conversion stays within the source when the whole
record lies inside it. -/
theorem cvtSectorRec_isSome {d : Bytes} {p : Nat → Nat} {i : Nat}
    (h : 26 * i + 26 ≤ d.length) : (cvtSectorRec d p i).isSome := by
  have e1 := readI16_eq (d := d) (i := 26 * i) (by omega)
  have e2 := readI16_eq (d := d) (i := 26 * i + 2) (by omega)
  have e3 := readI16_eq (d := d) (i := 26 * i + 20) (by omega)
  have e4 := readI16_eq (d := d) (i := 26 * i + 22) (by omega)
  have e5 := readI16_eq (d := d) (i := 26 * i + 24) (by omega)
  simp [cvtSectorRec, e1, e2, e3, e4, e5]

/-- A sidedef record conversion stays within the source when the whole
record lies inside it. -/
theorem cvtSidedefRec_isSome {d : Bytes} {res : Bytes → Int} {i : Nat}
    (h : 30 * i + 30 ≤ d.length) : (cvtSidedefRec d res i).isSome := by
  have e1 := readI16_eq (d := d) (i := 30 * i) (by omega)
  have e2 := readI16_eq (d := d) (i := 30 * i + 2) (by omega)
  have e3 := readI16_eq (d := d) (i := 30 * i + 28) (by omega)
  obtain ⟨tt, htt⟩ := bytesAt_isSome (d := d) 8 (30 * i + 4) (by omega)
  obtain ⟨bt, hbt⟩ := bytesAt_isSome (d := d) 8 (30 * i + 12) (by omega)
  obtain ⟨mt, hmt⟩ := bytesAt_isSome (d := d) 8 (30 * i + 20) (by omega)
  simp [cvtSidedefRec, e1, e2, e3, htt, hbt, hmt]

/-- A linedef record conversion stays within the source when the whole
record lies inside it. -/
theorem cvtLinedefRec_isSome {d : Bytes} {i : Nat}
    (h : 14 * i + 14 ≤ d.length) : (cvtLinedefRec d i).isSome := by
  have e1 := readI16_eq (d := d) (i := 14 * i) (by omega)
  have e2 := readI16_eq (d := d) (i := 14 * i + 2) (by omega)
  have e3 := readI16_eq (d := d) (i := 14 * i + 4) (by omega)
  have e4 := readI16_eq (d := d) (i := 14 * i + 6) (by omega)
  have e5 := readI16_eq (d := d) (i := 14 * i + 8) (by omega)
  have e6 := readI16_eq (d := d) (i := 14 * i + 10) (by omega)
  have e7 := readI16_eq (d := d) (i := 14 * i + 12) (by omega)
  simp [cvtLinedefRec, e1, e2, e3, e4, e5, e6, e7]

/-- Narrowing a value shifted by FRACBITS into a 16-bit field always
stores zero: the low 16 bits of the shifted value vanish. -/
theorem narrowI16_shift (x : Int) : narrowI16 (x * 2 ^ FRACBITS) = 0 := by
  have h : x * 2 ^ FRACBITS % 65536 = 0 := by
    have e : (2 : Int) ^ FRACBITS = 65536 := by norm_num [FRACBITS]
    rw [e]
    omega
  simp [narrowI16, h]

/-- Narrowing a reinterpreted 16-bit value into a uint8 field keeps
exactly the low byte. -/
theorem narrowU8_i16 (v : Nat) : narrowU8 (i16ofNat v) = v % 256 := by
  unfold narrowU8 i16ofNat
  split <;> omega

/-- Record count selected by the lump name: the truncating division of the
source size by the PC record size for a geometry kind, zero otherwise. -/
def expectedRecs (name : List Char) (src : Bytes) : Nat :=
  match pcRecSizeOf name with
  | some k => src.length / k
  | none => 0

/-- Totality and size accounting of convertMapLump under the PC format:
the call always succeeds (every source read is in bounds), the returned
needed size is the truncated record count times the destination record
size, a data call writes exactly that many records and bytes, and a
size-only call writes nothing. -/
theorem convertMapLump_total (szs : PsxSizes) (prevColor : Nat → Nat)
    (resolve : Bytes → Int) (name : List Char) (src : Bytes) (hasDest : Bool) :
    ∃ r out,
      convertMapLump szs WadFormat.PC_Doom prevColor resolve name src hasDest =
        some (r, out) ∧
      r = expectedRecs name src * psxRecSizeOf szs name ∧
      recCount out = (if hasDest then expectedRecs name src else 0) ∧
      writtenBytes szs out = (if hasDest then r else 0) ∧
      (hasDest = false → out = OutData.noWrite) := by
  have hdiv4 := Nat.div_mul_le_self src.length 4
  have hdiv26 := Nat.div_mul_le_self src.length 26
  have hdiv30 := Nat.div_mul_le_self src.length 30
  have hdiv14 := Nat.div_mul_le_self src.length 14
  by_cases h1 : sameName8 name vertexesN = true
  · cases hasDest with
    | false =>
      exact ⟨src.length / 4 * SIZEOF_PSX_VERTEX, OutData.noWrite,
        by simp [convertMapLump, needsConversionF, h1],
        by simp [expectedRecs, pcRecSizeOf, psxRecSizeOf, h1],
        by simp [recCount], by simp [writtenBytes], fun _ => rfl⟩
    | true =>
      obtain ⟨l, hl⟩ := recList_isSome (f := cvtVertexRec src) (src.length / 4)
        (fun i hi => cvtVertexRec_isSome (by omega))
      obtain ⟨hlen, _⟩ := recList_get hl
      refine ⟨src.length / 4 * SIZEOF_PSX_VERTEX, OutData.vertsOut l, ?_, ?_, ?_, ?_, ?_⟩
      · simp [convertMapLump, needsConversionF, h1, hl]
      · simp [expectedRecs, pcRecSizeOf, psxRecSizeOf, h1]
      · simp [recCount, hlen, expectedRecs, pcRecSizeOf, h1]
      · simp [writtenBytes, hlen]
      · intro hf; cases hf
  by_cases h2 : sameName8 name sectorsN = true
  · cases hasDest with
    | false =>
      exact ⟨src.length / 26 * szs.sector, OutData.noWrite,
        by simp [convertMapLump, needsConversionF, h1, h2],
        by simp [expectedRecs, pcRecSizeOf, psxRecSizeOf, h1, h2],
        by simp [recCount], by simp [writtenBytes], fun _ => rfl⟩
    | true =>
      obtain ⟨l, hl⟩ := recList_isSome (f := cvtSectorRec src prevColor) (src.length / 26)
        (fun i hi => cvtSectorRec_isSome (by omega))
      obtain ⟨hlen, _⟩ := recList_get hl
      refine ⟨src.length / 26 * szs.sector, OutData.sectsOut l, ?_, ?_, ?_, ?_, ?_⟩
      · simp [convertMapLump, needsConversionF, h1, h2, hl]
      · simp [expectedRecs, pcRecSizeOf, psxRecSizeOf, h1, h2]
      · simp [recCount, hlen, expectedRecs, pcRecSizeOf, h1, h2]
      · simp [writtenBytes, hlen]
      · intro hf; cases hf
  by_cases h3 : sameName8 name sidedefsN = true
  · cases hasDest with
    | false =>
      exact ⟨src.length / 30 * szs.sidedef, OutData.noWrite,
        by simp [convertMapLump, needsConversionF, h1, h2, h3],
        by simp [expectedRecs, pcRecSizeOf, psxRecSizeOf, h1, h2, h3],
        by simp [recCount], by simp [writtenBytes], fun _ => rfl⟩
    | true =>
      obtain ⟨l, hl⟩ := recList_isSome (f := cvtSidedefRec src resolve) (src.length / 30)
        (fun i hi => cvtSidedefRec_isSome (by omega))
      obtain ⟨hlen, _⟩ := recList_get hl
      refine ⟨src.length / 30 * szs.sidedef, OutData.sidesOut l, ?_, ?_, ?_, ?_, ?_⟩
      · simp [convertMapLump, needsConversionF, h1, h2, h3, hl]
      · simp [expectedRecs, pcRecSizeOf, psxRecSizeOf, h1, h2, h3]
      · simp [recCount, hlen, expectedRecs, pcRecSizeOf, h1, h2, h3]
      · simp [writtenBytes, hlen]
      · intro hf; cases hf
  by_cases h4 : sameName8 name linedefsN = true
  · cases hasDest with
    | false =>
      exact ⟨src.length / 14 * szs.linedef, OutData.noWrite,
        by simp [convertMapLump, needsConversionF, h1, h2, h3, h4],
        by simp [expectedRecs, pcRecSizeOf, psxRecSizeOf, h1, h2, h3, h4],
        by simp [recCount], by simp [writtenBytes], fun _ => rfl⟩
    | true =>
      obtain ⟨l, hl⟩ := recList_isSome (f := cvtLinedefRec src) (src.length / 14)
        (fun i hi => cvtLinedefRec_isSome (by omega))
      obtain ⟨hlen, _⟩ := recList_get hl
      refine ⟨src.length / 14 * szs.linedef, OutData.linesOut l, ?_, ?_, ?_, ?_, ?_⟩
      · simp [convertMapLump, needsConversionF, h1, h2, h3, h4, hl]
      · simp [expectedRecs, pcRecSizeOf, psxRecSizeOf, h1, h2, h3, h4]
      · simp [recCount, hlen, expectedRecs, pcRecSizeOf, h1, h2, h3, h4]
      · simp [writtenBytes, hlen]
      · intro hf; cases hf
  · exact ⟨0, OutData.noWrite,
      by simp [convertMapLump, needsConversionF, h1, h2, h3, h4],
      by simp [expectedRecs, pcRecSizeOf, psxRecSizeOf, h1, h2, h3, h4],
      by simp [recCount, expectedRecs, pcRecSizeOf, h1, h2, h3, h4],
      by simp [writtenBytes], fun _ => rfl⟩

/-- Under a format that needs no conversion the call returns 0 and writes
nothing, for every lump name and source. -/
theorem convertMapLump_passive (szs : PsxSizes) (fmt : WadFormat)
    (prevColor : Nat → Nat) (resolve : Bytes → Int) (name : List Char)
    (src : Bytes) (hasDest : Bool) (h : needsConversionF fmt = false) :
    convertMapLump szs fmt prevColor resolve name src hasDest =
      some (0, OutData.noWrite) := by
  simp [convertMapLump, h]

/-- Concrete destination record sizes used by witnesses; the theorems hold
for every choice, these values only instantiate them. -/
def szs0 : PsxSizes := { sector := 28, sidedef := 12, linedef := 14 }

/-- Destination buffer whose unwritten color-id bytes are all zero. -/
def prev0 : Nat → Nat := fun _ => 0

/-- Destination buffer whose unwritten color-id bytes are all seven. -/
def prev7 : Nat → Nat := fun _ => 7

/-- Texture name resolution oracle answering index zero for every name. -/
def res0 : Bytes → Int := fun _ => 0

/-- C2 counterexample: a VERTEXES lump of 6 bytes is not a multiple of the
4-byte PC record size; the claim says such a lump is reported as
MalformedLump and yields zero converted records, but convertMapLump has no
error condition at all and converts one record (the needed size is 8, one
destination record), silently discarding the trailing two bytes. -/
theorem c2_counterexample :
    convertMapLump szs0 WadFormat.PC_Doom prev0 res0 vertexesN [0, 0, 0, 0, 1, 0] true =
      some (8, OutData.vertsOut [{ x := 0, y := 0 }]) ∧
    (6 : Nat) % 4 ≠ 0 ∧
    recCount (OutData.vertsOut [{ x := 0, y := 0 }]) = 1 ∧ (1 : Nat) ≠ 0 := by
  refine ⟨by decide, by decide, by decide, by decide⟩

/-- C2 amended: for every geometry lump the converter produces exactly
sourceSize divided by the PC record size (truncating any remainder)
records, reports no error condition, and never reads past the declared
source length: the conversion result is some, while every source access in
the embedding goes through byteAt, which fails on any out-of-bounds
offset. -/
theorem c2_theorem (szs : PsxSizes) (prevColor : Nat → Nat)
    (resolve : Bytes → Int) (name : List Char) (src : Bytes) :
    ∃ r out,
      convertMapLump szs WadFormat.PC_Doom prevColor resolve name src true =
        some (r, out) ∧
      recCount out = expectedRecs name src := by
  obtain ⟨r, out, he, _, hc, _, _⟩ :=
    convertMapLump_total szs prevColor resolve name src true
  exact ⟨r, out, he, by simpa using hc⟩

/-- C3: for a PC vertex lump of N records (byte length N times 4) the
size-only query returns N times 8 and the data call produces exactly N
destination records whose fields are the source signed 16-bit coordinates
shifted left by 16 bits, each axis independently. -/
theorem c3_theorem (szs : PsxSizes) (prevColor : Nat → Nat)
    (resolve : Bytes → Int) (N : Nat) (src : Bytes) (h : src.length = N * 4) :
    convertMapLump szs WadFormat.PC_Doom prevColor resolve vertexesN src false =
      some (N * 8, OutData.noWrite) ∧
    ∃ l, convertMapLump szs WadFormat.PC_Doom prevColor resolve vertexesN src true =
        some (N * 8, OutData.vertsOut l) ∧
      l.length = N ∧
      ∀ i, i < N →
        l[i]? = some { x := i16At src (4 * i) * 65536,
                       y := i16At src (4 * i + 2) * 65536 } := by
  have hs : sameName8 vertexesN vertexesN = true := by decide
  have hcount : src.length / 4 = N := by omega
  have hpow : (2 : Int) ^ FRACBITS = 65536 := by norm_num [FRACBITS]
  constructor
  · simp [convertMapLump, needsConversionF, hs, hcount, SIZEOF_PSX_VERTEX]
  · obtain ⟨l, hl⟩ := recList_isSome (f := cvtVertexRec src) (src.length / 4)
      (fun i hi => cvtVertexRec_isSome (by omega))
    obtain ⟨hlen, hget⟩ := recList_get hl
    rw [hcount] at hl
    refine ⟨l, ?_, by omega, ?_⟩
    · simp [convertMapLump, needsConversionF, hs, hl, hcount, SIZEOF_PSX_VERTEX]
    · intro i hi
      have e1 := readI16_eq (d := src) (i := 4 * i) (by omega)
      have e2 := readI16_eq (d := src) (i := 4 * i + 2) (by omega)
      rw [hget i (by omega)]
      simp [cvtVertexRec, e1, e2, hpow]

/-- C3 witness: a one-record lump holding the point (1, -1) yields size 8
and the single record (65536, -65536). -/
theorem c3_witness :
    convertMapLump szs0 WadFormat.PC_Doom prev0 res0 vertexesN [1, 0, 255, 255] false =
      some (8, OutData.noWrite) ∧
    ∃ l, convertMapLump szs0 WadFormat.PC_Doom prev0 res0 vertexesN [1, 0, 255, 255] true =
        some (8, OutData.vertsOut l) ∧
      l.length = 1 ∧ l[0]? = some { x := 65536, y := -65536 } := by
  obtain ⟨hs, l, hd, hlen, hv⟩ := c3_theorem szs0 prev0 res0 1 [1, 0, 255, 255] rfl
  refine ⟨hs, l, hd, hlen, ?_⟩
  have hv0 := hv 0 (by omega)
  rw [hv0]
  decide

/-- C4 counterexample: with the Unknown active format (no conversion
needed) and lump name THINGS, the claim says the size query returns the
source size 10 unchanged and the convert call copies the 10 source bytes;
the code instead returns 0 and writes nothing to the destination. -/
theorem c4_counterexample :
    convertMapLump szs0 WadFormat.Unknown prev0 res0 ("THINGS".toList)
      (List.replicate 10 0) true = some (0, OutData.noWrite) ∧
    (List.replicate 10 (0 : Nat)).length = 10 ∧ (0 : Nat) ≠ 10 := by
  refine ⟨rfl, by decide, by decide⟩

/-- C4 amended: whenever conversion is not applicable, because the active
format needs no conversion or the lump name matches no geometry kind,
convertMapLump returns 0 and performs no write at all (no pass-through
copy happens inside this layer); no error condition exists. -/
theorem c4_theorem (szs : PsxSizes) (fmt : WadFormat) (prevColor : Nat → Nat)
    (resolve : Bytes → Int) (name : List Char) (src : Bytes) (hasDest : Bool)
    (h : needsConversionF fmt = false ∨ pcRecSizeOf name = none) :
    convertMapLump szs fmt prevColor resolve name src hasDest =
      some (0, OutData.noWrite) := by
  rcases h with h | h
  · exact convertMapLump_passive szs fmt prevColor resolve name src hasDest h
  · cases hc : needsConversionF fmt with
    | false => exact convertMapLump_passive szs fmt prevColor resolve name src hasDest hc
    | true =>
      have h1 : sameName8 name vertexesN = false := by
        cases hx : sameName8 name vertexesN
        · rfl
        · simp [pcRecSizeOf, hx] at h
      have h2 : sameName8 name sectorsN = false := by
        cases hx : sameName8 name sectorsN
        · rfl
        · simp [pcRecSizeOf, h1, hx] at h
      have h3 : sameName8 name sidedefsN = false := by
        cases hx : sameName8 name sidedefsN
        · rfl
        · simp [pcRecSizeOf, h1, h2, hx] at h
      have h4 : sameName8 name linedefsN = false := by
        cases hx : sameName8 name linedefsN
        · rfl
        · simp [pcRecSizeOf, h1, h2, h3, hx] at h
      simp [convertMapLump, hc, h1, h2, h3, h4]

/-- C4 witness: an Unknown-format call on an arbitrary lump returns 0 and
writes nothing. -/
theorem c4_witness :
    convertMapLump szs0 WadFormat.Unknown prev0 res0 ("FLATS".toList) [1, 2, 3] true =
      some (0, OutData.noWrite) :=
  c4_theorem szs0 WadFormat.Unknown prev0 res0 ("FLATS".toList) [1, 2, 3] true
    (Or.inl (by decide))

/-- C9: the size query leaves the session state unchanged, so a repeated
query with identical inputs returns the same value, and the value of a
size-only query equals exactly the byte count a data-filling convert call
with the same inputs writes and also returns. Determinism holds because
convertMapLump reads only the active format and mutates no member of the
layer. -/
theorem c9_theorem (szs : PsxSizes) (prevColor : Nat → Nat)
    (resolve : Bytes → Int) (s : SessionState) (name : List Char) (src : Bytes) :
    (convertMapLumpS szs prevColor resolve s name src false).1 = s ∧
    (convertMapLumpS szs prevColor resolve
        ((convertMapLumpS szs prevColor resolve s name src false).1) name src false).2 =
      (convertMapLumpS szs prevColor resolve s name src false).2 ∧
    ∃ r out,
      (convertMapLumpS szs prevColor resolve s name src false).2 =
        some (r, OutData.noWrite) ∧
      (convertMapLumpS szs prevColor resolve s name src true).2 = some (r, out) ∧
      writtenBytes szs out = r := by
  refine ⟨rfl, rfl, ?_⟩
  by_cases hf : s.format = WadFormat.PC_Doom
  · obtain ⟨r, out, he, hr, _, hw, _⟩ :=
      convertMapLump_total szs prevColor resolve name src true
    obtain ⟨r2, out2, he2, hr2, _, _, hnw2⟩ :=
      convertMapLump_total szs prevColor resolve name src false
    have hout2 : out2 = OutData.noWrite := hnw2 rfl
    have hrr : r2 = r := by rw [hr2, hr]
    refine ⟨r, out, ?_, ?_, by simpa using hw⟩
    · show convertMapLump szs s.format prevColor resolve name src false =
        some (r, OutData.noWrite)
      rw [hf, he2, hout2, hrr]
    · show convertMapLump szs s.format prevColor resolve name src true = some (r, out)
      rw [hf, he]
  · have hnc : needsConversionF s.format = false := by
      unfold needsConversionF
      cases hx : s.format <;> simp_all
    refine ⟨0, OutData.noWrite, ?_, ?_, by simp [writtenBytes]⟩
    · exact convertMapLump_passive szs s.format prevColor resolve name src false hnc
    · exact convertMapLump_passive szs s.format prevColor resolve name src true hnc

/-- Session state used to refute claim C10: an active PC session with one
cached converted lump. -/
def sessA : SessionState :=
  { format := WadFormat.PC_Doom, cacheNames := ["FOO".toList] }

/-- C10 counterexample: after endMapConversion on an active PC session
with a nonempty cache, the claim says the cache is empty, the format is
Unknown and needsConversion is false; the function body is empty, so the
format is still PC_Doom, the cache still holds its entry and
needsConversion is still true. -/
theorem c10_counterexample :
    endMapConversion sessA = sessA ∧
    (endMapConversion sessA).format = WadFormat.PC_Doom ∧
    (endMapConversion sessA).cacheNames ≠ [] ∧
    needsConversionS (endMapConversion sessA) = true ∧
    WadFormat.PC_Doom ≠ WadFormat.Unknown := by
  refine ⟨rfl, rfl, by decide, rfl, by decide⟩

/-- C10 amended: endMapConversion is a no-op leaving the session state,
hence needsConversion, unchanged; the cache is discarded and the format
set only by the next beginMapConversion. -/
theorem c10_theorem (s : SessionState) (fmt : WadFormat) :
    endMapConversion s = s ∧
    needsConversionS (endMapConversion s) = needsConversionS s ∧
    (beginMapConversion s fmt).format = fmt ∧
    (beginMapConversion s fmt).cacheNames = [] :=
  ⟨rfl, rfl, rfl, rfl⟩

/-- A successful signed 16-bit read returns the total-reader value. -/
theorem readI16_some_eq {d : Bytes} {j : Nat} {v : Int}
    (h : readI16 d j = some v) : v = i16At d j := by
  unfold readI16 readU16le at h
  cases h0 : byteAt d j with
  | none => rw [h0] at h; simp at h
  | some a =>
    cases h1 : byteAt d (j + 1) with
    | none => rw [h0, h1] at h; simp at h
    | some b =>
      rw [h0, h1] at h
      simp at h
      subst h
      unfold byteAt at h0 h1
      simp [i16At, u16At, List.getD, h0, h1]

/-- Inversion of a sidedef lump conversion back to its record list. -/
theorem convert_sidedefs_inv (szs : PsxSizes) (prevColor : Nat → Nat)
    (resolve : Bytes → Int) (src : Bytes) (r : Nat) (l : List PsxSidedef)
    (h : convertMapLump szs WadFormat.PC_Doom prevColor resolve sidedefsN src true =
      some (r, OutData.sidesOut l)) :
    recList (cvtSidedefRec src resolve) (src.length / 30) = some l := by
  have hs1 : sameName8 sidedefsN vertexesN = false := by decide
  have hs2 : sameName8 sidedefsN sectorsN = false := by decide
  have hs3 : sameName8 sidedefsN sidedefsN = true := by decide
  simp only [convertMapLump, needsConversionF, hs1, hs2, hs3] at h
  cases hr : recList (cvtSidedefRec src resolve) (src.length / 30) with
  | none => rw [hr] at h; simp at h
  | some l0 =>
    rw [hr] at h
    simp at h
    rw [h.2]

/-- Inversion of a sector lump conversion back to its record list. -/
theorem convert_sectors_inv (szs : PsxSizes) (prevColor : Nat → Nat)
    (resolve : Bytes → Int) (src : Bytes) (r : Nat) (l : List PsxSector)
    (h : convertMapLump szs WadFormat.PC_Doom prevColor resolve sectorsN src true =
      some (r, OutData.sectsOut l)) :
    recList (cvtSectorRec src prevColor) (src.length / 26) = some l := by
  have hs1 : sameName8 sectorsN vertexesN = false := by decide
  have hs2 : sameName8 sectorsN sectorsN = true := by decide
  simp only [convertMapLump, needsConversionF, hs1, hs2] at h
  cases hr : recList (cvtSectorRec src prevColor) (src.length / 26) with
  | none => rw [hr] at h; simp at h
  | some l0 =>
    rw [hr] at h
    simp at h
    rw [h.2]

/-- A record present in a converted list came from its record conversion. -/
theorem convertedRec_src {α : Type} {f : Nat → Option α} {n : Nat}
    {l : List α} {i : Nat} {rec : α} (hl : recList f n = some l)
    (hi : l[i]? = some rec) : f i = some rec := by
  obtain ⟨hlen, hget⟩ := recList_get hl
  have hilt : i < l.length := by
    cases hx : l[i]? with
    | none => rw [hx] at hi; cases hi
    | some v => exact (List.getElem?_eq_some.mp hx).1
  rw [← hget i (by omega), hi]

/-- C6 counterexample: a single PC sidedef whose texture offset is 1 and
row offset is 2; the claim says the destination offsets equal the source
values 1 and 2 unchanged, but the conversion shifts them by FRACBITS
before storing, so the converted record holds 0 for both. -/
theorem c6_counterexample :
    convertMapLump szs0 WadFormat.PC_Doom prev0 res0 sidedefsN
      ([1, 0, 2, 0] ++ List.replicate 24 0 ++ [0, 0]) true =
      some (12, OutData.sidesOut
        [{ textureoffset := 0, rowoffset := 0, toptexture := 0,
           bottomtexture := 0, midtexture := 0, sector := 0 }]) ∧
    i16At ([1, 0, 2, 0] ++ List.replicate 24 0 ++ [0, 0]) 0 = 1 ∧
    i16At ([1, 0, 2, 0] ++ List.replicate 24 0 ++ [0, 0]) 2 = 2 ∧
    (0 : Int) ≠ 1 := by
  refine ⟨by decide, by decide, by decide, by decide⟩

/-- C6 amended: the conversion applies a fixed-point shift to the sidedef
offsets: each destination offset field receives the source 16-bit value
shifted left by FRACBITS and narrowed into the 16-bit destination field of
the byte-for-byte matching record, which always stores 0, not the source
value. -/
theorem c6_theorem (szs : PsxSizes) (prevColor : Nat → Nat)
    (resolve : Bytes → Int) (src : Bytes) (r : Nat) (l : List PsxSidedef)
    (i : Nat) (rec : PsxSidedef)
    (h : convertMapLump szs WadFormat.PC_Doom prevColor resolve sidedefsN src true =
      some (r, OutData.sidesOut l))
    (hi : l[i]? = some rec) :
    rec.textureoffset = narrowI16 (i16At src (30 * i) * 2 ^ FRACBITS) ∧
    rec.rowoffset = narrowI16 (i16At src (30 * i + 2) * 2 ^ FRACBITS) ∧
    rec.textureoffset = 0 ∧ rec.rowoffset = 0 := by
  have hfi := convertedRec_src (convert_sidedefs_inv szs prevColor resolve src r l h) hi
  rw [cvtSidedefRec] at hfi
  split at hfi
  · rename_i tof rof tt bt mt sec e1 e2 e3 e4 e5 e6
    have ht := readI16_some_eq e1
    have hro := readI16_some_eq e2
    have hrec := Option.some.inj hfi
    subst hrec
    subst ht
    subst hro
    refine ⟨rfl, rfl, narrowI16_shift _, narrowI16_shift _⟩
  · simp at hfi

/-- C6 witness: the amended law evaluated on the concrete one-record
sidedef lump with source offsets 1 and 2. -/
theorem c6_witness :
    ({ textureoffset := 0, rowoffset := 0, toptexture := 0, bottomtexture := 0,
       midtexture := 0, sector := 0 } : PsxSidedef).textureoffset =
      narrowI16 (i16At ([1, 0, 2, 0] ++ List.replicate 24 0 ++ [0, 0]) (30 * 0) *
        2 ^ FRACBITS) ∧
    ({ textureoffset := 0, rowoffset := 0, toptexture := 0, bottomtexture := 0,
       midtexture := 0, sector := 0 } : PsxSidedef).rowoffset =
      narrowI16 (i16At ([1, 0, 2, 0] ++ List.replicate 24 0 ++ [0, 0]) (30 * 0 + 2) *
        2 ^ FRACBITS) ∧
    ({ textureoffset := 0, rowoffset := 0, toptexture := 0, bottomtexture := 0,
       midtexture := 0, sector := 0 } : PsxSidedef).textureoffset = 0 ∧
    ({ textureoffset := 0, rowoffset := 0, toptexture := 0, bottomtexture := 0,
       midtexture := 0, sector := 0 } : PsxSidedef).rowoffset = 0 :=
  c6_theorem szs0 prev0 res0 ([1, 0, 2, 0] ++ List.replicate 24 0 ++ [0, 0]) 12
    [{ textureoffset := 0, rowoffset := 0, toptexture := 0, bottomtexture := 0,
       midtexture := 0, sector := 0 }] 0
    { textureoffset := 0, rowoffset := 0, toptexture := 0, bottomtexture := 0,
      midtexture := 0, sector := 0 }
    (by decide) (by decide)

/-- Source bytes of one PC sector record: floor height 1, ceiling height
2, zeroed flat names, light level 255 (0x00FF), special 3, tag 4. -/
def srcSe : Bytes := [1, 0, 2, 0] ++ List.replicate 16 0 ++ [255, 0, 3, 0, 4, 0]

/-- C7 counterexample: a sector with floor height 1 and ceiling height 2;
the claim says the destination heights equal the source heights as
integers, but the conversion shifts them by FRACBITS before storing into
the 16-bit field, so both converted heights are 0. -/
theorem c7_counterexample :
    convertMapLump szs0 WadFormat.PC_Doom prev0 res0 sectorsN srcSe true =
      some (28, OutData.sectsOut
        [{ floorheight := 0, ceilingheight := 0, floorpic := 0, ceilingpic := 0,
           lightlevel := 255, colorid := 0, special := 3, tag := 4 }]) ∧
    i16At srcSe 0 = 1 ∧ i16At srcSe 2 = 2 ∧ (0 : Int) ≠ 1 := by
  refine ⟨by decide, by decide, by decide, by decide⟩

/-- C7 amended: the conversion applies a fixed-point shift to the sector
heights: each destination height field receives the source 16-bit height
shifted left by FRACBITS and narrowed into the 16-bit destination field,
which always stores 0, not the source height. -/
theorem c7_theorem (szs : PsxSizes) (prevColor : Nat → Nat)
    (resolve : Bytes → Int) (src : Bytes) (r : Nat) (l : List PsxSector)
    (i : Nat) (rec : PsxSector)
    (h : convertMapLump szs WadFormat.PC_Doom prevColor resolve sectorsN src true =
      some (r, OutData.sectsOut l))
    (hi : l[i]? = some rec) :
    rec.floorheight = narrowI16 (i16At src (26 * i) * 2 ^ FRACBITS) ∧
    rec.ceilingheight = narrowI16 (i16At src (26 * i + 2) * 2 ^ FRACBITS) ∧
    rec.floorheight = 0 ∧ rec.ceilingheight = 0 := by
  have hfi := convertedRec_src (convert_sectors_inv szs prevColor resolve src r l h) hi
  rw [cvtSectorRec] at hfi
  split at hfi
  · rename_i fh ch ll sp tg e1 e2 e3 e4 e5
    have hf := readI16_some_eq e1
    have hc := readI16_some_eq e2
    have hrec := Option.some.inj hfi
    subst hrec
    subst hf
    subst hc
    refine ⟨rfl, rfl, narrowI16_shift _, narrowI16_shift _⟩
  · simp at hfi

/-- C7 witness: the amended law evaluated on the concrete one-record
sector lump with source heights 1 and 2. -/
theorem c7_witness :
    ({ floorheight := 0, ceilingheight := 0, floorpic := 0, ceilingpic := 0,
       lightlevel := 255, colorid := 0, special := 3, tag := 4 } : PsxSector).floorheight =
      narrowI16 (i16At srcSe (26 * 0) * 2 ^ FRACBITS) ∧
    ({ floorheight := 0, ceilingheight := 0, floorpic := 0, ceilingpic := 0,
       lightlevel := 255, colorid := 0, special := 3, tag := 4 } : PsxSector).ceilingheight =
      narrowI16 (i16At srcSe (26 * 0 + 2) * 2 ^ FRACBITS) ∧
    ({ floorheight := 0, ceilingheight := 0, floorpic := 0, ceilingpic := 0,
       lightlevel := 255, colorid := 0, special := 3, tag := 4 } : PsxSector).floorheight = 0 ∧
    ({ floorheight := 0, ceilingheight := 0, floorpic := 0, ceilingpic := 0,
       lightlevel := 255, colorid := 0, special := 3, tag := 4 } : PsxSector).ceilingheight = 0 :=
  c7_theorem szs0 prev0 res0 srcSe 28
    [{ floorheight := 0, ceilingheight := 0, floorpic := 0, ceilingpic := 0,
       lightlevel := 255, colorid := 0, special := 3, tag := 4 }] 0
    { floorheight := 0, ceilingheight := 0, floorpic := 0, ceilingpic := 0,
      lightlevel := 255, colorid := 0, special := 3, tag := 4 }
    (by decide) (by decide)

/-- C8 counterexample: converting the sector whose PC light level is
0x00FF into a destination buffer whose prior color-id byte is 7; the claim
says the destination color-id is set to 0, but the conversion never writes
the color-id field, so the converted record still holds the prior byte 7.
The light level does come out as 255. -/
theorem c8_counterexample :
    convertMapLump szs0 WadFormat.PC_Doom prev7 res0 sectorsN srcSe true =
      some (28, OutData.sectsOut
        [{ floorheight := 0, ceilingheight := 0, floorpic := 0, ceilingpic := 0,
           lightlevel := 255, colorid := 7, special := 3, tag := 4 }]) ∧
    u16At srcSe 20 = 255 ∧ (7 : Nat) ≠ 0 := by
  refine ⟨by decide, by decide, by decide⟩

/-- C8 amended: the destination 8-bit light level is the low byte of the
PC 16-bit light level (the 16-bit value narrowed on assignment into the
8-bit field), and in particular a PC light level of 0x00FF yields 255;
the color-id field is never written by the conversion and keeps the
prior contents of the destination buffer instead of being set to 0. -/
theorem c8_theorem (szs : PsxSizes) (prevColor : Nat → Nat)
    (resolve : Bytes → Int) (src : Bytes) (r : Nat) (l : List PsxSector)
    (i : Nat) (rec : PsxSector)
    (h : convertMapLump szs WadFormat.PC_Doom prevColor resolve sectorsN src true =
      some (r, OutData.sectsOut l))
    (hi : l[i]? = some rec) :
    rec.lightlevel = u16At src (26 * i + 20) % 256 ∧
    rec.colorid = prevColor i := by
  have hfi := convertedRec_src (convert_sectors_inv szs prevColor resolve src r l h) hi
  rw [cvtSectorRec] at hfi
  split at hfi
  · rename_i fh ch ll sp tg e1 e2 e3 e4 e5
    have hl := readI16_some_eq e3
    have hrec := Option.some.inj hfi
    subst hrec
    subst hl
    exact ⟨narrowU8_i16 _, rfl⟩
  · simp at hfi

/-- C8 witness: the amended law evaluated on the concrete sector lump with
light level 0x00FF and prior color-id byte 7. -/
theorem c8_witness :
    ({ floorheight := 0, ceilingheight := 0, floorpic := 0, ceilingpic := 0,
       lightlevel := 255, colorid := 7, special := 3, tag := 4 } : PsxSector).lightlevel =
      u16At srcSe (26 * 0 + 20) % 256 ∧
    ({ floorheight := 0, ceilingheight := 0, floorpic := 0, ceilingpic := 0,
       lightlevel := 255, colorid := 7, special := 3, tag := 4 } : PsxSector).colorid =
      prev7 0 :=
  c8_theorem szs0 prev7 res0 srcSe 28
    [{ floorheight := 0, ceilingheight := 0, floorpic := 0, ceilingpic := 0,
       lightlevel := 255, colorid := 7, special := 3, tag := 4 }] 0
    { floorheight := 0, ceilingheight := 0, floorpic := 0, ceilingpic := 0,
      lightlevel := 255, colorid := 7, special := 3, tag := 4 }
    (by decide) (by decide)

/-- Result of a patch drawing walk: the updated destination pixels, an
out-of-bounds access of the patch lump at the given byte index (in C an
invalid dereference), or exhaustion of the step budget of the embedding.
The budget exists only to make the recursion structural: the checked
walk is proved to finish with ok on every input, and the unchecked walk
is only ever evaluated on concrete inputs where the budget is ample. -/
inductive WalkResult where
  | ok (pix : Bytes)
  | oob (i : Int)
  | fuelOut
deriving DecidableEq

/-- Inner pixel loop shared by both compositing routines (wad_compat.cpp
lines 507 to 512 and 585 to 590): k pixels of the current post, reading
the source byte at j and writing it at row y of column drawX, rows outside
the texture clipped silently. In both routines the source byte is read
only when the row is inside the texture. -/
def drawRun (data : Bytes) (texW texH drawX : Nat) : Nat → Int → Nat → Bytes → WalkResult
  | _, _, 0, pix => WalkResult.ok pix
  | j, y, k + 1, pix =>
    if 0 ≤ y ∧ y < (texH : Int) then
      match byteAt data j with
      | none => WalkResult.oob j
      | some b =>
        drawRun data texW texH drawX (j + 1) (y + 1) k (pix.set (y.toNat * texW + drawX) b)
    else drawRun data texW texH drawX (j + 1) (y + 1) k pix

/-- Post walk of ConvertPCTexturesToPSX (wad_compat.cpp lines 497 to 516):
the loop runs while at least a 4-byte post header fits before the end of
the patch lump, stops the column at the 0xFF terminator, breaks drawing of
the column when the post pixels would overrun the lump, and advances by
the post length plus 4. -/
def cvtPosts (data : Bytes) (texW texH : Nat) (y0 : Int) (drawX : Nat) :
    Nat → Nat → Bytes → WalkResult
  | fuel, pos, pix =>
    if pos + 4 ≤ data.length then
      match fuel with
      | 0 => WalkResult.fuelOut
      | fuel + 1 =>
        match byteAt data pos with
        | none => WalkResult.oob pos
        | some td =>
          if td = 255 then WalkResult.ok pix
          else
            match byteAt data (pos + 1) with
            | none => WalkResult.oob (pos + 1)
            | some len =>
              if data.length < pos + 3 + len then WalkResult.ok pix
              else
                match drawRun data texW texH drawX (pos + 3) (y0 + td) len pix with
                | WalkResult.ok pix2 =>
                  cvtPosts data texW texH y0 drawX fuel (pos + len + 4) pix2
                | r => r
    else WalkResult.ok pix

/-- Column loop of ConvertPCTexturesToPSX (wad_compat.cpp lines 487 to
517): k columns remaining starting at column col; a column whose draw
position falls outside the texture is skipped before its offset is read,
and a column offset outside the patch lump is skipped without being
dereferenced. -/
def cvtCols (data : Bytes) (texW texH : Nat) (x0 y0 : Int) :
    Nat → Nat → Bytes → WalkResult
  | 0, _, pix => WalkResult.ok pix
  | k + 1, col, pix =>
    if x0 + (col : Int) < 0 ∨ (texW : Int) ≤ x0 + (col : Int) then
      cvtCols data texW texH x0 y0 k (col + 1) pix
    else
      match readI32 data (8 + 4 * col) with
      | none => WalkResult.oob (8 + 4 * col)
      | some cOff =>
        if cOff < 0 ∨ (data.length : Int) ≤ cOff then
          cvtCols data texW texH x0 y0 k (col + 1) pix
        else
          match cvtPosts data texW texH y0 (x0 + (col : Int)).toNat data.length
              cOff.toNat pix with
          | WalkResult.ok pix2 => cvtCols data texW texH x0 y0 k (col + 1) pix2
          | r => r

/-- Per-patch drawing of ConvertPCTexturesToPSX (wad_compat.cpp lines 476
to 517): a patch lump shorter than its 8-byte header is skipped, the
declared patch width is read from the header, a lump too short for the
per-column offset table is skipped, and otherwise every column is drawn. -/
def cvtDrawPatch (data : Bytes) (texW texH : Nat) (x0 y0 : Int) (pix : Bytes) : WalkResult :=
  if data.length < 8 then WalkResult.ok pix
  else
    match readI16 data 0 with
    | none => WalkResult.oob 0
    | some w =>
      if (data.length : Int) < 8 + w * 4 then WalkResult.ok pix
      else cvtCols data texW texH x0 y0 w.toNat 0 pix

/-- Post walk of generateTexturePixels (wad_compat.cpp lines 577 to 592):
the loop has no bounds checks at all; the post header bytes are
dereferenced wherever the column offset points, and the walk only ends at
a 0xFF terminator byte. -/
def genPosts (data : Bytes) (texW texH : Nat) (y0 : Int) (texX : Nat) :
    Nat → Nat → Bytes → WalkResult
  | fuel, pos, pix =>
    match byteAt data pos with
    | none => WalkResult.oob pos
    | some td =>
      if td = 255 then WalkResult.ok pix
      else
        match byteAt data (pos + 1) with
        | none => WalkResult.oob (pos + 1)
        | some len =>
          match drawRun data texW texH texX (pos + 3) (y0 + td) len pix with
          | WalkResult.ok pix2 =>
            match fuel with
            | 0 => WalkResult.fuelOut
            | fuel + 1 => genPosts data texW texH y0 texX fuel (pos + len + 4) pix2
          | r => r

/-- Column loop of generateTexturePixels (wad_compat.cpp lines 570 to
593): the column offset is read from the offset table without any check
against the lump size, and the post walk starts at it unchecked; a
negative offset dereferences before the lump start. -/
def genCols (data : Bytes) (texW texH : Nat) (x0 y0 : Int) :
    Nat → Nat → Bytes → WalkResult
  | 0, _, pix => WalkResult.ok pix
  | k + 1, col, pix =>
    if x0 + (col : Int) < 0 ∨ (texW : Int) ≤ x0 + (col : Int) then
      genCols data texW texH x0 y0 k (col + 1) pix
    else
      match readI32 data (8 + 4 * col) with
      | none => WalkResult.oob (8 + 4 * col)
      | some cOff =>
        if cOff < 0 then WalkResult.oob cOff
        else
          match genPosts data texW texH y0 (x0 + (col : Int)).toNat (data.length + 1)
              cOff.toNat pix with
          | WalkResult.ok pix2 => genCols data texW texH x0 y0 k (col + 1) pix2
          | r => r

/-- Per-patch drawing of generateTexturePixels (wad_compat.cpp lines 558
to 593): the patch width and height are read from the header without any
size check, then every column is drawn with the unchecked column loop. -/
def genDrawPatch (data : Bytes) (texW texH : Nat) (x0 y0 : Int) (pix : Bytes) : WalkResult :=
  match readI16 data 0 with
  | none => WalkResult.oob 0
  | some w =>
    match readI16 data 2 with
    | none => WalkResult.oob 2
    | some _hgt => genCols data texW texH x0 y0 w.toNat 0 pix

/-- Patch lump used to refute claim C1: a valid header declaring width 1
and height 1, whose single column offset is 12, the length of the lump
itself, so the first post header byte lies one past the end. -/
def patchC1 : Bytes := [1, 0, 1, 0, 0, 0, 0, 0, 12, 0, 0, 0]

/-- C1 counterexample: the claim says a column whose declared offset
points at or past the length of the patch lump is skipped and no byte at an
offset at or beyond the lump length is ever read; the generateTexturePixels
compositing path dereferences the unchecked column offset 12 of a 12-byte
lump, an out-of-bounds read at exactly the lump length. -/
theorem c1_counterexample :
    genDrawPatch patchC1 1 1 0 0 [0] = WalkResult.oob 12 ∧
    patchC1.length = 12 := by
  refine ⟨by decide, by decide⟩

/-- The shared pixel loop never leaves the patch lump when the whole run
lies inside it. -/
theorem drawRun_ok (data : Bytes) (texW texH drawX : Nat) :
    ∀ (k j : Nat) (y : Int) (pix : Bytes), j + k ≤ data.length →
      ∃ p, drawRun data texW texH drawX j y k pix = WalkResult.ok p := by
  intro k
  induction k with
  | zero => exact fun j y pix _ => ⟨pix, rfl⟩
  | succ k ih =>
    intro j y pix h
    by_cases hy : 0 ≤ y ∧ y < (texH : Int)
    · have hb := byteAt_eq (d := data) (i := j) (by omega)
      obtain ⟨p, hp⟩ :=
        ih (j + 1) (y + 1) (pix.set (y.toNat * texW + drawX) (data.getD j 0)) (by omega)
      refine ⟨p, ?_⟩
      simp only [drawRun]
      rw [if_pos hy, hb]
      exact hp
    · obtain ⟨p, hp⟩ := ih (j + 1) (y + 1) pix (by omega)
      refine ⟨p, ?_⟩
      simp only [drawRun]
      rw [if_neg hy]
      exact hp

/-- Variant of byteAt_eq in the getElem normal form used by simp. -/
theorem byteAtN {d : Bytes} {i : Nat} (h : i < d.length) :
    byteAt d i = some (d[i]?.getD 0) := by
  rw [byteAt_eq h, List.getD_eq_getElem?_getD]

/-- The checked post walk of ConvertPCTexturesToPSX finishes with ok on
every patch lump and start offset, given the step budget of the
embedding: every dereference it makes is guarded. -/
theorem cvtPosts_ok (data : Bytes) (texW texH : Nat) (y0 : Int) (drawX : Nat) :
    ∀ (fuel pos : Nat) (pix : Bytes), data.length ≤ pos + 4 * fuel →
      ∃ p, cvtPosts data texW texH y0 drawX fuel pos pix = WalkResult.ok p := by
  intro fuel
  induction fuel with
  | zero =>
    intro pos pix h
    refine ⟨pix, ?_⟩
    simp only [cvtPosts]
    rw [if_neg (by omega)]
  | succ fuel ih =>
    intro pos pix h
    by_cases hin : pos + 4 ≤ data.length
    · have hb0 := byteAtN (d := data) (i := pos) (by omega)
      have hb1 := byteAtN (d := data) (i := pos + 1) (by omega)
      by_cases htd : data[pos]?.getD 0 = 255
      · refine ⟨pix, ?_⟩
        simp only [cvtPosts]
        rw [if_pos hin, hb0]
        simp [htd]
      · by_cases hlen : data.length < pos + 3 + data[pos + 1]?.getD 0
        · refine ⟨pix, ?_⟩
          simp only [cvtPosts]
          rw [if_pos hin, hb0]
          simp [htd, hb1, hlen]
        · obtain ⟨p1, hp1⟩ := drawRun_ok data texW texH drawX (data[pos + 1]?.getD 0)
            (pos + 3) (y0 + (data[pos]?.getD 0 : Nat)) pix (by omega)
          obtain ⟨p, hp⟩ := ih (pos + data[pos + 1]?.getD 0 + 4) p1 (by omega)
          refine ⟨p, ?_⟩
          simp only [cvtPosts]
          rw [if_pos hin, hb0]
          simp [htd, hb1, hlen, hp1, hp]
    · refine ⟨pix, ?_⟩
      simp only [cvtPosts]
      rw [if_neg hin]

/-- The checked column loop of ConvertPCTexturesToPSX finishes with ok
whenever the per-column offset table of the remaining columns lies inside
the patch lump, which the caller guarantees before entering the loop. -/
theorem cvtCols_ok (data : Bytes) (texW texH : Nat) (x0 y0 : Int) :
    ∀ (k col : Nat) (pix : Bytes), 8 + 4 * (col + k) ≤ data.length →
      ∃ p, cvtCols data texW texH x0 y0 k col pix = WalkResult.ok p := by
  intro k
  induction k with
  | zero => exact fun col pix _ => ⟨pix, rfl⟩
  | succ k ih =>
    intro col pix h
    by_cases hx : x0 + (col : Int) < 0 ∨ (texW : Int) ≤ x0 + (col : Int)
    · obtain ⟨p, hp⟩ := ih (col + 1) pix (by omega)
      refine ⟨p, ?_⟩
      simp only [cvtCols]
      rw [if_pos hx]
      exact hp
    · have hr := readI32_eq (d := data) (i := 8 + 4 * col) (by omega)
      by_cases hc : i32ofNat (u32At data (8 + 4 * col)) < 0 ∨
          (data.length : Int) ≤ i32ofNat (u32At data (8 + 4 * col))
      · obtain ⟨p, hp⟩ := ih (col + 1) pix (by omega)
        refine ⟨p, ?_⟩
        simp only [cvtCols]
        rw [if_neg hx, hr]
        simp [hc, hp]
      · obtain ⟨p1, hp1⟩ := cvtPosts_ok data texW texH y0 (x0 + (col : Int)).toNat
          data.length (i32ofNat (u32At data (8 + 4 * col))).toNat pix (by omega)
        obtain ⟨p, hp⟩ := ih (col + 1) p1 (by omega)
        refine ⟨p, ?_⟩
        simp only [cvtCols]
        rw [if_neg hx, hr]
        simp [hc, hp1, hp]

/-- C1 amended: the compositing path of ConvertPCTexturesToPSX checks
every column offset and every post read against the patch lump length
before dereferencing, so for every patch lump contents, texture size,
placement and prior pixel buffer the drawing finishes without a single
out-of-bounds read: a column whose offset points outside the lump is
skipped, a column whose post would overrun stops, and the remaining
columns still composite. The alternative generateTexturePixels routine
does not perform these checks (see the counterexample). -/
theorem c1_theorem (data : Bytes) (texW texH : Nat) (x0 y0 : Int) (pix : Bytes) :
    ∃ p, cvtDrawPatch data texW texH x0 y0 pix = WalkResult.ok p := by
  by_cases h8 : data.length < 8
  · exact ⟨pix, by simp [cvtDrawPatch, h8]⟩
  · have hr := readI16_eq (d := data) (i := 0) (by omega)
    by_cases hw : (data.length : Int) < 8 + i16At data 0 * 4
    · refine ⟨pix, ?_⟩
      simp only [cvtDrawPatch]
      rw [if_neg h8, hr]
      simp [hw]
    · obtain ⟨p, hp⟩ := cvtCols_ok data texW texH x0 y0 (i16At data 0).toNat 0 pix
        (by omega)
      refine ⟨p, ?_⟩
      simp only [cvtDrawPatch]
      rw [if_neg h8, hr]
      simp [hw, hp]

/-- On the very lump of the C1 counterexample, the checked path skips the
out-of-range column offset and returns the pixels untouched. -/
theorem cvt_skips_bad_column :
    cvtDrawPatch patchC1 1 1 0 0 [0] = WalkResult.ok [0] := by decide

end WadCompat
